import Mathlib

/-!
Verification of go-port-tester.

Shallow embedding of `port_tester.go` (package `main`): the listener
constructor `NewServer`, the TCP and UDP accept loops and handlers, the
probe `checkPort` and the coordinator `main`.

Modelling conventions
* Go strings that the program only concatenates and prints are Lean `String`s.
* The outcome of every call into package `net` (dial, read, accept, listen)
  is an input of the model: the program is a function of those outcomes.
* Goroutines are modelled by explicit schedules: a schedule says which task
  takes its next step, and every theorem quantifies over all schedules.
-/

namespace PortTester

/-! ## Formatting helpers (package `fmt`) -/

/-- The verb `%d` applied to a Go `int`. -/
def fmtInt (n : Int) : String := toString n

/-- The expression `fmt.Sprintf("%s:%d", ip, port)`. -/
def hostPort (ip : String) (port : Int) : String := ip ++ ":" ++ fmtInt port

/-! ## `strings.ToLower` -/

/-- The ASCII branch of `strings.ToLower`: `c += 'a' - 'A'` for `'A' <= c <= 'Z'`. -/
def asciiLower (c : Char) : Char :=
  if 'A'.toNat ≤ c.toNat ∧ c.toNat ≤ 'Z'.toNat then Char.ofNat (c.toNat + 32) else c

/-- The test `c < utf8.RuneSelf` of `strings.ToLower`. -/
def isASCII (c : Char) : Bool := decide (c.toNat < 128)

/-- The test `'A' <= c && c <= 'Z'` of `strings.ToLower`. -/
def isASCIIUpper (c : Char) : Bool := decide ('A'.toNat ≤ c.toNat ∧ c.toNat ≤ 'Z'.toNat)

/-- The library function `strings.ToLower`. An all-ASCII string is returned
unchanged when it has no upper-case letter and is lower-cased letter by letter
otherwise; any other string is mapped rune by rune through `unicode.ToLower`,
whose table is the parameter `unicodeToLower`. -/
def ToLower (unicodeToLower : Char → Char) (s : String) : String :=
  if s.toList.all isASCII then
    if s.toList.any isASCIIUpper then String.mk (s.toList.map asciiLower) else s
  else String.mk (s.toList.map unicodeToLower)

/-! ## `Server`, `NewServer` -/

/-- The struct `TCPServer`: `server` is the `net.Listener`, `none` for Go's nil. -/
structure TCPServer where
  addr : String
  server : Option Nat
  deriving DecidableEq, Repr

/-- The struct `UDPServer`: `server` is the `*net.UDPConn`, `none` for Go's nil. -/
structure UDPServer where
  addr : String
  server : Option Nat
  deriving DecidableEq, Repr

/-- The interface `Server`, with its two implementations. -/
inductive Server where
  | tcp (t : TCPServer)
  | udp (u : UDPServer)
  deriving DecidableEq, Repr

/-- The function `NewServer(protocol, addr)`; the result is Go's pair
`(Server, error)` with `none` for nil. -/
def NewServer (unicodeToLower : Char → Char) (protocol addr : String) :
    Option Server × Option String :=
  let p := ToLower unicodeToLower protocol
  if p = "tcp" then (some (Server.tcp { addr := addr, server := none }), none)
  else if p = "udp" then (some (Server.udp { addr := addr, server := none }), none)
  else (none, some "Invalid protocol given")

/-! ## `checkPort` -/

/-- What the network does to one probe: `net.DialTimeout` fails with an error,
or it succeeds and the single `conn.Read` fails, or the read returns `n` bytes. -/
inductive ProbeNet where
  | dialError (err : String)
  | readError (err : String)
  | readOk (n : Int)
  deriving DecidableEq, Repr

/-- The effects of one call of `checkPort`: the network and address handed
to `net.DialTimeout`, what was written to the connection, the line printed on
standard output, whether the connection was closed, and the number of
`waitgroup.Done()` calls. -/
structure ProbeRun where
  network : String
  dialed : String
  sent : List String
  printed : String
  closed : Bool
  done : Nat
  deriving DecidableEq, Repr

/-- The function `checkPort(ip, port, proto, timeoutSecs)`. -/
def checkPort (ip : String) (port : Int) (proto : String) (_timeoutSecs : Int)
    (net : ProbeNet) : ProbeRun :=
  let host := hostPort ip port
  match net with
  | .dialError err =>
      { network := proto, dialed := host, sent := [],
        printed := host ++ ": Error " ++ err ++ "\n", closed := false, done := 1 }
  | .readError err =>
      { network := proto, dialed := host, sent := ["TEST\n"],
        printed := host ++ ": Error " ++ err ++ "\n", closed := true, done := 1 }
  | .readOk n =>
      { network := proto, dialed := host, sent := ["TEST\n"],
        printed := host ++ ": OK " ++ fmtInt n ++ "\n", closed := true, done := 1 }

/-! ## The TCP listener -/

/-- One outcome of `rw.ReadString('\n')`: either a whole line, delimiter
included, with a nil error, or a non-nil error (EOF, timeout, ...) together
with whatever was read before it. -/
inductive ReadResult where
  | line (req : String)
  | error (req : String) (err : String)
  deriving DecidableEq, Repr

/-- What one connection handler did: the strings it wrote and flushed, in
order, whether it returned, and whether the deferred `conn.Close()` ran. -/
structure HandlerRun where
  written : List String
  returned : Bool
  closed : Bool
  deriving DecidableEq, Repr

/-- The method `TCPServer.handleConnection(conn)`, as a function of the
successive results of `ReadString` on the connection. An exhausted list is a
handler still blocked in `ReadString`. -/
def TCPServer.handleConnection (t : TCPServer) : List ReadResult → HandlerRun
  | [] => { written := [], returned := false, closed := false }
  | .error _ _ :: _ =>
      { written := ["failed to read input"], returned := true, closed := true }
  | .line req :: rest =>
      let r := TCPServer.handleConnection t rest
      { r with written := ("Request received: " ++ req) :: r.written }

/-- One turn of the loop `for { select { case <-quit: ...; default: ... } }`
of the TCP server: the quit channel is ready, or it is not and
`t.server.Accept()` returns the pair `(conn, err)`. -/
inductive TCPTick where
  | quit
  | accept (conn : Option Nat) (err : Option String)
  deriving DecidableEq, Repr

/-- What an accept loop did: the arguments of the `go handleConnection(...)`
statements it executed, in order, and its return value (`none`: the loop has
not returned, `some e`: it returned the error `e`, `some none` being nil). -/
structure LoopRun (α : Type) where
  dispatched : List α
  result : Option (Option String)
  deriving DecidableEq, Repr

/-- The method `TCPServer.handleConnections(quit)`. The `break` of the error
branch leaves the `select`, not the `for`, so the loop goes on. -/
def TCPServer.handleConnections (t : TCPServer) : List TCPTick → LoopRun Nat
  | [] => { dispatched := [], result := none }
  | .quit :: _ => { dispatched := [], result := some none }
  | .accept conn err :: rest =>
      let r := TCPServer.handleConnections t rest
      match err, conn with
      | none, some c => { r with dispatched := c :: r.dispatched }
      | _, _ => r

/-- What a call of `Run` did: the accept loop's record, and whether the
listener was closed on the way out. -/
structure ServerRun (α : Type) where
  loop : LoopRun α
  closed : Bool
  deriving DecidableEq, Repr

/-- The method `TCPServer.Run(quit)`; `listen` is the result of
`net.Listen("tcp", t.addr)`. -/
def TCPServer.Run (t : TCPServer) (listen : Except String Nat) (ticks : List TCPTick) :
    ServerRun Nat :=
  match listen with
  | .error err => { loop := { dispatched := [], result := some (some err) }, closed := false }
  | .ok l =>
      let r := TCPServer.handleConnections { t with server := some l } ticks
      { loop := r, closed := r.result.isSome }

/-! ## The UDP listener -/

/-- A byte. -/
abbrev Byte := Nat

/-- The bytes of a string, as `[]byte(s)` gives them. -/
def stringBytes (s : String) : List Byte :=
  (s.toList.flatMap String.utf8EncodeChar).map UInt8.toNat

/-- A sender address, `*net.UDPAddr`. -/
structure UDPAddr where
  ip : String
  port : Nat
  deriving DecidableEq, Repr

/-- A datagram written with `WriteToUDP(payload, dest)`. -/
structure Datagram where
  payload : List Byte
  dest : UDPAddr
  deriving DecidableEq, Repr

/-- One turn of the UDP server's loop: the quit channel is ready, or it is
not and `u.server.ReadFromUDP(buf)` receives the datagram `data` and returns
the sender `sender` and the error `err`. -/
inductive UDPTick where
  | quit
  | read (data : List Byte) (sender : Option UDPAddr) (err : Option String)
  deriving DecidableEq, Repr

/-- The expression `make([]byte, n)`. -/
def makeBytes (n : Nat) : List Byte := List.replicate n 0

/-- The library call `ReadFromUDP(buf)` receiving the datagram `data`: it
copies as much of `data` as fits at the start of `buf` and returns the number
of bytes copied with the buffer. -/
def ReadFromUDP (buf data : List Byte) : Nat × List Byte :=
  let n := min data.length buf.length
  (n, data.take n ++ buf.drop n)

/-- The method `UDPServer.handleConnection(addr, cmd)`: the datagrams it writes. -/
def UDPServer.handleConnection (_u : UDPServer) (addr : UDPAddr) (cmd : List Byte) :
    List Datagram :=
  [{ payload := stringBytes "Request recieved: " ++ cmd, dest := addr }]

/-- The method `UDPServer.handleConnections(quit)`. -/
def UDPServer.handleConnections (u : UDPServer) : List UDPTick → LoopRun (UDPAddr × List Byte)
  | [] => { dispatched := [], result := none }
  | .quit :: _ => { dispatched := [], result := some none }
  | .read data sender err :: rest =>
      let buf := makeBytes 2048
      let (n, buf) := ReadFromUDP buf data
      let r := UDPServer.handleConnections u rest
      match err with
      | some _ => r
      | none =>
          match sender with
          | none => r
          | some conn => { r with dispatched := (conn, buf.take n) :: r.dispatched }

/-- The method `UDPServer.Run(q)`; `resolve` is the result of
`net.ResolveUDPAddr("udp", u.addr)` and `listen` that of `net.ListenUDP`. -/
def UDPServer.Run (u : UDPServer) (resolve : Except String Nat) (listen : Except String Nat)
    (ticks : List UDPTick) : ServerRun (UDPAddr × List Byte) :=
  match resolve with
  | .error _ =>
      { loop := { dispatched := [], result := some (some "could not resolve UDP addr") },
        closed := false }
  | .ok _ =>
      match listen with
      | .error _ =>
          { loop := { dispatched := [], result := some (some "could not listen on UDP") },
            closed := false }
      | .ok l =>
          { loop := UDPServer.handleConnections { u with server := some l } ticks,
            closed := false }

/-- The reply datagrams of the UDP server: what the handlers dispatched by
the loop write, handler by handler. -/
def UDPServer.replies (u : UDPServer) (ticks : List UDPTick) : List Datagram :=
  (UDPServer.handleConnections u ticks).dispatched.flatMap
    (fun d => UDPServer.handleConnection u d.1 d.2)

/-- The network as the listener sees it: the results of the bind calls and
the turns of the accept loops. -/
structure ListenEnv where
  tcpListen : Except String Nat
  udpResolve : Except String Nat
  udpListen : Except String Nat
  tcpTicks : List TCPTick
  udpTicks : List UDPTick

/-- The interface call `s.Run(q)`: the error it returns, if it returns. -/
def Server.Run (s : Server) (env : ListenEnv) : Option (Option String) :=
  match s with
  | .tcp t => (TCPServer.Run t env.tcpListen env.tcpTicks).loop.result
  | .udp u => (UDPServer.Run u env.udpResolve env.udpListen env.udpTicks).loop.result

/-! ## The probes as concurrent tasks -/

/-- One `go checkPort(ip, ...)` task. Its steps on shared state are the
`fmt.Printf` of its result line and then the deferred `waitgroup.Done()`:
`pc = 0` before the line is printed, `pc = 1` between the two, `pc = 2` once
the task has returned. -/
structure ProbeTask where
  ip : String
  net : ProbeNet
  pc : Nat
  deriving DecidableEq, Repr

/-- The state the probe tasks share: standard output, line by line, and the
counter of the package-level `waitgroup`. -/
structure ProbeWorld where
  tasks : List ProbeTask
  stdout : List String
  waitgroup : Int
  deriving DecidableEq, Repr

/-- The next step of one task: the task after it, the lines it prints and the
number of `Done()` calls it makes. A task that has returned does nothing. -/
def ProbeTask.step (port : Int) (proto : String) (timeout : Int) (t : ProbeTask) :
    ProbeTask × List String × Nat :=
  match t.pc with
  | 0 => ({ t with pc := 1 }, [(checkPort t.ip port proto timeout t.net).printed], 0)
  | 1 => ({ t with pc := 2 }, [], (checkPort t.ip port proto timeout t.net).done)
  | _ => (t, [], 0)

/-- The next step of the `i`-th task of a list. -/
def stepAt (port : Int) (proto : String) (timeout : Int) :
    Nat → List ProbeTask → List ProbeTask × List String × Nat
  | _, [] => ([], [], 0)
  | 0, t :: ts =>
      let r := ProbeTask.step port proto timeout t
      (r.1 :: ts, r.2.1, r.2.2)
  | i + 1, t :: ts =>
      let r := stepAt port proto timeout i ts
      (t :: r.1, r.2.1, r.2.2)

/-- The scheduler lets task `i` take its next step. -/
def ProbeWorld.step (port : Int) (proto : String) (timeout : Int) (w : ProbeWorld) (i : Nat) :
    ProbeWorld :=
  let r := stepAt port proto timeout i w.tasks
  { tasks := r.1, stdout := w.stdout ++ r.2.1, waitgroup := w.waitgroup - r.2.2 }

/-- The statements `waitgroup.Add(flag.NArg())` and
`for _, ip := range flag.Args() { go checkPort(...) }` of `main`: one task
per target, each with the outcome the network has in store for it. -/
def startProbes (probes : List (String × ProbeNet)) : ProbeWorld :=
  { tasks := probes.map (fun p => { ip := p.1, net := p.2, pc := 0 }),
    stdout := [],
    waitgroup := 0 + probes.length }

/-- The probes run under a schedule: the list of the tasks that take a step,
in order. -/
def runProbes (port : Int) (proto : String) (timeout : Int) (probes : List (String × ProbeNet))
    (schedule : List Nat) : ProbeWorld :=
  schedule.foldl (ProbeWorld.step port proto timeout) (startProbes probes)

/-- The schedule that runs the tasks one after the other. -/
def seqSchedule : Nat → List Nat
  | 0 => []
  | n + 1 => 0 :: 0 :: (seqSchedule n).map (· + 1)

/-- The result line of one target. -/
def resultLine (port : Int) (proto : String) (timeout : Int) (p : String × ProbeNet) : String :=
  (checkPort p.1 port proto timeout p.2).printed

/-! ## `main` -/

/-- The flags and arguments of the command line, after `flag.Parse()`. -/
structure Config where
  port : Int
  timeout : Int
  proto : String
  bind : String
  sleep : Int
  delay : Int
  noListen : Bool
  targets : List String
  deriving DecidableEq, Repr

/-- Wrap-around to the range of `int64`. -/
def int64 (x : Int) : Int := (x + 2 ^ 63) % 2 ^ 64 - 2 ^ 63

/-- The expression `time.Duration(n) * time.Second`, in nanoseconds. -/
def seconds (n : Int) : Int := int64 (int64 n * 1000000000)

/-- What the process does, as far as the coordinator is concerned. -/
inductive Action where
  /-- The call `log.Fatal(msg)`: the message is logged and the process exits with status 1 -/
  | fatal (msg : String)
  /-- The statement `go func() { ... }()`: the listener task is launched -/
  | goListener
  /-- The call `time.Sleep(d)`, `d` in nanoseconds -/
  | sleep (d : Int)
  /-- The call `waitgroup.Add(n)` -/
  | wgAdd (n : Int)
  /-- The statement `go checkPort(ip, port, proto, timeout)` -/
  | goCheckPort (ip : String) (port : Int) (proto : String) (timeout : Int)
  /-- The call `waitgroup.Wait()` -/
  | wgWait
  /-- The call `close(q)`: the shutdown signal is fired -/
  | closeQuit
  /-- The call `s.Run(q)` in the listener task, with the value it returns, which the task drops -/
  | run (s : Server) (returned : Option (Option String))
  /-- The call `s.Run(q)` on a nil `s` -/
  | nilRun
  deriving DecidableEq, Repr

/-- Whether an action is a `log.Fatal`. -/
def Action.isFatal : Action → Bool
  | .fatal _ => true
  | _ => false

/-- Whether an action launches a probe. -/
def Action.isProbe : Action → Bool
  | .goCheckPort _ _ _ _ => true
  | _ => false

/-- Whether an action is a call of `Run`, that is, an attempt to bind and serve. -/
def Action.isRun : Action → Bool
  | .run _ _ => true
  | .nilRun => true
  | _ => false

/-- The function `main`, on its own thread: the actions of the coordinator in
program order. -/
def main (cfg : Config) : List Action :=
  if cfg.port = 0 then [.fatal "Please specify port"]
  else if cfg.targets.length < 1 then [.fatal "Please specify at least one IP to check"]
  else
    (if !cfg.noListen then [.goListener, .sleep (seconds cfg.delay)] else [])
      ++ [.wgAdd cfg.targets.length]
      ++ cfg.targets.map (fun ip => .goCheckPort ip cfg.port cfg.proto cfg.timeout)
      ++ [.wgWait, .sleep (seconds cfg.sleep), .closeQuit]

/-- The body of the task `go func() { s, err = NewServer(...); ... }()`.
`log.Fatal` formats its operands as `fmt.Sprint` does, so the verbs of its
first operand are printed as they stand, followed by the other operands. -/
def listenerBody (unicodeToLower : Char → Char) (cfg : Config) (env : ListenEnv) : List Action :=
  let r := NewServer unicodeToLower cfg.proto (hostPort cfg.bind cfg.port)
  match r.2 with
  | some _ => [.fatal ("Error starting server on %s:%d" ++ cfg.bind ++ fmtInt cfg.port)]
  | none =>
      match r.1 with
      | some s => [.run s (Server.Run s env)]
      | none => [.nilRun]

/-- The whole process. The listener task, once launched, takes its step after
`k` further actions of `main`; a `log.Fatal` there ends the process at once,
and so does the return of `main`, after which no task runs any more. -/
def processTrace (unicodeToLower : Char → Char) (cfg : Config) (env : ListenEnv) (k : Nat) :
    List Action :=
  match main cfg with
  | .goListener :: rest =>
      if k < rest.length then
        let body := listenerBody unicodeToLower cfg env
        .goListener :: (rest.take k ++ body ++ (if body.any Action.isFatal then [] else rest.drop k))
      else .goListener :: rest
  | tr => tr

/-! ## Vocabulary of the statements -/

/-- The connection a turn of the TCP loop hands to a handler, if any: the
accepted connection when `Accept` returned it with a nil error. -/
def TCPTick.handled : TCPTick → Option Nat
  | .accept (some c) none => some c
  | _ => none

/-- Whether a turn of the TCP loop finds the quit channel ready. -/
def TCPTick.isQuit : TCPTick → Bool
  | .quit => true
  | _ => false

/-- The sender and bytes a turn of the UDP loop hands to a handler, if any:
those of a datagram read with a nil error from a non-nil sender, cut to the
2048 bytes of the buffer. -/
def UDPTick.handled : UDPTick → Option (UDPAddr × List Byte)
  | .read data (some a) none => some (a, data.take 2048)
  | _ => none

/-- Whether a turn of the UDP loop finds the quit channel ready. -/
def UDPTick.isQuit : UDPTick → Bool
  | .quit => true
  | _ => false

/-- The reply the UDP server owes to one turn of its loop, if any. -/
def UDPTick.reply (k : UDPTick) : Option Datagram :=
  k.handled.map (fun d => { payload := stringBytes "Request recieved: " ++ d.2, dest := d.1 })

/-- The number of tasks that have not returned yet. -/
def unfinished (ts : List ProbeTask) : Nat := ts.countP (fun t => decide (t.pc < 2))

/-- The targets of a list of tasks, each with its network outcome. -/
def targetsOf (ts : List ProbeTask) : List (String × ProbeNet) := ts.map (fun t => (t.ip, t.net))

/-- The result lines of the tasks that have printed theirs, in task order. -/
def printedBy (port : Int) (proto : String) (timeout : Int) (ts : List ProbeTask) : List String :=
  (ts.filter (fun t => decide (0 < t.pc))).map
    (fun t => resultLine port proto timeout (t.ip, t.net))

/-- The tasks after a schedule, output and counter left aside. -/
def tasksRun (port : Int) (proto : String) (timeout : Int) (schedule : List Nat)
    (ts : List ProbeTask) : List ProbeTask :=
  schedule.foldl (fun l i => (stepAt port proto timeout i l).1) ts

/-- A schedule as the tasks after the first see it: the steps of the first
task are left out and the other indices count from the second task. -/
def tailSchedule (schedule : List Nat) : List Nat :=
  schedule.filterMap (fun i => match i with
    | 0 => none
    | j + 1 => some j)

/-- One task after `c` of its steps. -/
def headRun (port : Int) (proto : String) (timeout : Int) (c : Nat) (t : ProbeTask) : ProbeTask :=
  Nat.iterate (fun x => (ProbeTask.step port proto timeout x).1) c t

/-- The invariant of the probe tasks under any schedule: the tasks are those
of the targets, standard output holds the lines of the tasks that have printed
and the counter of the wait group is the number of tasks still to return. -/
def ProbeInv (port : Int) (proto : String) (timeout : Int) (probes : List (String × ProbeNet))
    (w : ProbeWorld) : Prop :=
  targetsOf w.tasks = probes ∧ List.Perm w.stdout (printedBy port proto timeout w.tasks) ∧
    w.waitgroup = unfinished w.tasks

/-- Whether a trace ends the process with a `log.Fatal` before any network
activity: it has a fatal action, and before the first one no probe is
launched and `Run` is not called. -/
def abortsBeforeNetwork (tr : List Action) : Bool :=
  tr.any Action.isFatal &&
    (tr.takeWhile (fun a => !a.isFatal)).all (fun a => !a.isProbe && !a.isRun)

/-- The probes `main` launches, one per target in the order of the command line. -/
def probeActions (cfg : Config) : List Action :=
  cfg.targets.map (fun ip => Action.goCheckPort ip cfg.port cfg.proto cfg.timeout)

/-- The message of the listener task's `log.Fatal`. -/
def startErrorMessage (cfg : Config) : String :=
  "Error starting server on %s:%d" ++ cfg.bind ++ fmtInt cfg.port

/-- A command line: `-port 9000 -timeout 2 -delay 1 -sleep 3 127.0.0.1`. -/
def sampleConfig : Config :=
  { port := 9000, timeout := 2, proto := "tcp", bind := "", sleep := 3, delay := 1,
    noListen := false, targets := ["127.0.0.1"] }

/-- A network on which every bind succeeds and the listener sees no traffic. -/
def quietEnv : ListenEnv :=
  { tcpListen := .ok 3, udpResolve := .ok 0, udpListen := .ok 4, tcpTicks := [], udpTicks := [] }

/-- A network on which the TCP port is taken: `net.Listen` fails. -/
def busyEnv : ListenEnv :=
  { tcpListen := .error "listen tcp :9000: bind: address already in use",
    udpResolve := .ok 0, udpListen := .ok 4, tcpTicks := [], udpTicks := [] }

/-- The three-letter spellings of a lower-case word in either case. -/
def caseVariants (a b c : Char) : List String :=
  [String.mk [a, b, c], String.mk [a, b, c.toUpper], String.mk [a, b.toUpper, c],
   String.mk [a, b.toUpper, c.toUpper], String.mk [a.toUpper, b, c],
   String.mk [a.toUpper, b, c.toUpper], String.mk [a.toUpper, b.toUpper, c],
   String.mk [a.toUpper, b.toUpper, c.toUpper]]

/-! ## Lemmas -/

theorem stringBytes_append (a b : String) :
    stringBytes (a ++ b) = stringBytes a ++ stringBytes b := by
  simp [stringBytes, String.toList]

theorem readFromUDP_take (data : List Byte) :
    (ReadFromUDP (makeBytes 2048) data).2.take (ReadFromUDP (makeBytes 2048) data).1
      = data.take 2048 := by
  simp only [ReadFromUDP, makeBytes, List.length_replicate]
  rw [List.take_append_of_le_length (by simp), List.take_take, Nat.min_self]
  rcases Nat.le_total data.length 2048 with h | h
  · rw [Nat.min_eq_left h, List.take_of_length_le (Nat.le_refl _), List.take_of_length_le h]
  · rw [Nat.min_eq_right h]

theorem tcp_loop_result (t : TCPServer) (ticks : List TCPTick) :
    (TCPServer.handleConnections t ticks).result
      = if ticks.any TCPTick.isQuit then some none else none := by
  induction ticks with
  | nil => rfl
  | cons k rest ih =>
      cases k with
      | quit => simp [TCPServer.handleConnections, TCPTick.isQuit]
      | accept conn err =>
          rcases conn with _ | c <;> rcases err with _ | e <;>
            simpa [TCPServer.handleConnections, TCPTick.isQuit] using ih

theorem tcp_loop_dispatched (t : TCPServer) (ticks : List TCPTick) :
    (TCPServer.handleConnections t ticks).dispatched
      = (ticks.takeWhile (fun k => !k.isQuit)).filterMap TCPTick.handled := by
  induction ticks with
  | nil => rfl
  | cons k rest ih =>
      cases k with
      | quit => simp [TCPServer.handleConnections, TCPTick.isQuit]
      | accept conn err =>
          rcases conn with _ | c <;> rcases err with _ | e <;>
            simp [TCPServer.handleConnections, TCPTick.isQuit, TCPTick.handled, ih]

theorem udp_loop_result (u : UDPServer) (ticks : List UDPTick) :
    (UDPServer.handleConnections u ticks).result
      = if ticks.any UDPTick.isQuit then some none else none := by
  induction ticks with
  | nil => rfl
  | cons k rest ih =>
      cases k with
      | quit => simp [UDPServer.handleConnections, UDPTick.isQuit]
      | read data sender err =>
          rcases sender with _ | a <;> rcases err with _ | e <;>
            simpa [UDPServer.handleConnections, UDPTick.isQuit] using ih

theorem udp_loop_dispatched (u : UDPServer) (ticks : List UDPTick) :
    (UDPServer.handleConnections u ticks).dispatched
      = (ticks.takeWhile (fun k => !k.isQuit)).filterMap UDPTick.handled := by
  induction ticks with
  | nil => rfl
  | cons k rest ih =>
      cases k with
      | quit => simp [UDPServer.handleConnections, UDPTick.isQuit]
      | read data sender err =>
          rcases sender with _ | a <;> rcases err with _ | e <;>
            simp [UDPServer.handleConnections, UDPTick.isQuit, UDPTick.handled, ih,
              readFromUDP_take]

theorem udp_replies_eq (u : UDPServer) (ticks : List UDPTick) :
    UDPServer.replies u ticks
      = (ticks.takeWhile (fun k => !k.isQuit)).filterMap UDPTick.reply := by
  rw [UDPServer.replies, udp_loop_dispatched]
  induction ticks.takeWhile (fun k => !k.isQuit) with
  | nil => rfl
  | cons k rest ih =>
      cases h : k.handled with
      | none => simp [List.filterMap_cons, UDPTick.reply, h, ih]
      | some d =>
          simp only [List.filterMap_cons, UDPTick.reply, h, List.flatMap_cons, Option.map_some']
          rw [ih]
          simp [UDPServer.handleConnection, UDPTick.reply]

theorem takeWhile_append_of_all {α : Type} (p : α → Bool) (l₁ l₂ : List α)
    (h : ∀ x ∈ l₁, p x = true) :
    (l₁ ++ l₂).takeWhile p = l₁ ++ l₂.takeWhile p := by
  induction l₁ with
  | nil => rfl
  | cons x xs ih =>
      have hx : p x = true := h x (List.mem_cons_self _ _)
      simp [List.takeWhile_cons, hx, ih (fun y hy => h y (List.mem_cons_of_mem _ hy))]

theorem checkPort_done (ip : String) (port : Int) (proto : String) (timeout : Int)
    (net : ProbeNet) : (checkPort ip port proto timeout net).done = 1 := by
  cases net <;> rfl

theorem task_step_spec (port : Int) (proto : String) (timeout : Int) (t : ProbeTask)
    (ts : List ProbeTask) :
    targetsOf ((ProbeTask.step port proto timeout t).1 :: ts) = targetsOf (t :: ts) ∧
    List.Perm (printedBy port proto timeout ((ProbeTask.step port proto timeout t).1 :: ts))
      (printedBy port proto timeout (t :: ts) ++ (ProbeTask.step port proto timeout t).2.1) ∧
    unfinished ((ProbeTask.step port proto timeout t).1 :: ts)
        + (ProbeTask.step port proto timeout t).2.2 = unfinished (t :: ts) := by
  rcases t with ⟨ip, net, pc⟩
  rcases pc with _ | _ | pc
  · refine ⟨rfl, ?_, ?_⟩
    · simp only [ProbeTask.step, printedBy, resultLine]
      simpa using (List.perm_append_singleton _ _).symm
    · simp [ProbeTask.step, unfinished, List.countP_cons]
  · refine ⟨rfl, ?_, ?_⟩
    · simp [ProbeTask.step, printedBy]
    · simp [ProbeTask.step, unfinished, List.countP_cons, checkPort_done]
  · refine ⟨rfl, ?_, ?_⟩
    · simp [ProbeTask.step, printedBy]
    · simp [ProbeTask.step, unfinished, List.countP_cons]

theorem stepAt_spec (port : Int) (proto : String) (timeout : Int) (i : Nat)
    (ts : List ProbeTask) :
    targetsOf (stepAt port proto timeout i ts).1 = targetsOf ts ∧
    List.Perm (printedBy port proto timeout (stepAt port proto timeout i ts).1)
      (printedBy port proto timeout ts ++ (stepAt port proto timeout i ts).2.1) ∧
    unfinished (stepAt port proto timeout i ts).1 + (stepAt port proto timeout i ts).2.2
      = unfinished ts := by
  induction ts generalizing i with
  | nil => simp [stepAt, printedBy, unfinished, targetsOf]
  | cons t ts ih =>
      cases i with
      | zero => simpa [stepAt] using task_step_spec port proto timeout t ts
      | succ i =>
          obtain ⟨h₁, h₂, h₃⟩ := ih i
          refine ⟨?_, ?_, ?_⟩
          · simpa [stepAt, targetsOf] using h₁
          · have hcons : ∀ l : List ProbeTask, printedBy port proto timeout (t :: l)
                = printedBy port proto timeout [t] ++ printedBy port proto timeout l := by
              intro l
              simp only [printedBy]
              rw [← List.map_append, ← List.filter_append]
              rfl
            simp only [stepAt]
            rw [hcons, hcons ts, List.append_assoc]
            exact List.Perm.append_left _ h₂
          · simp only [stepAt, unfinished, List.countP_cons] at h₃ ⊢
            omega

theorem probeInv_start (port : Int) (proto : String) (timeout : Int)
    (probes : List (String × ProbeNet)) :
    ProbeInv port proto timeout probes (startProbes probes) := by
  refine ⟨?_, ?_, ?_⟩
  · simp only [startProbes, targetsOf, List.map_map]
    exact (List.map_congr_left (fun p _ => rfl)).trans (List.map_id _)
  · simp only [startProbes, printedBy]
    rw [List.filter_eq_nil_iff.mpr]
    · simp
    · intro t ht
      obtain ⟨p, _, rfl⟩ := List.mem_map.mp ht
      simp
  · simp only [startProbes, unfinished]
    rw [List.countP_eq_length.mpr]
    · simp
    · intro t ht
      obtain ⟨p, _, rfl⟩ := List.mem_map.mp ht
      simp

theorem probeInv_step (port : Int) (proto : String) (timeout : Int)
    (probes : List (String × ProbeNet)) (w : ProbeWorld) (i : Nat)
    (h : ProbeInv port proto timeout probes w) :
    ProbeInv port proto timeout probes (ProbeWorld.step port proto timeout w i) := by
  obtain ⟨h₁, h₂, h₃⟩ := h
  obtain ⟨s₁, s₂, s₃⟩ := stepAt_spec port proto timeout i w.tasks
  refine ⟨?_, ?_, ?_⟩
  · simpa [ProbeWorld.step, h₁] using s₁
  · simp only [ProbeWorld.step]
    exact (List.Perm.append_right _ h₂).trans s₂.symm
  · simp only [ProbeWorld.step]
    omega

theorem probeInv_run (port : Int) (proto : String) (timeout : Int)
    (probes : List (String × ProbeNet)) (schedule : List Nat) (w : ProbeWorld)
    (h : ProbeInv port proto timeout probes w) :
    ProbeInv port proto timeout probes
      (schedule.foldl (ProbeWorld.step port proto timeout) w) := by
  induction schedule generalizing w with
  | nil => exact h
  | cons i rest ih => exact ih _ (probeInv_step port proto timeout probes w i h)

theorem printedBy_of_unfinished_zero (port : Int) (proto : String) (timeout : Int)
    (ts : List ProbeTask) (h : unfinished ts = 0) :
    printedBy port proto timeout ts = (targetsOf ts).map (resultLine port proto timeout) := by
  have hall : ∀ t ∈ ts, ¬ t.pc < 2 := by
    intro t ht
    have := (List.countP_eq_zero.mp h) t ht
    simpa using this
  have hf : ts.filter (fun t => decide (0 < t.pc)) = ts := by
    apply List.filter_eq_self.mpr
    intro t ht
    have := hall t ht
    simp only [decide_eq_true_eq]
    omega
  simp [printedBy, hf, targetsOf]

theorem run_shift (port : Int) (proto : String) (timeout : Int) (t : ProbeTask)
    (schedule : List Nat) (ts : List ProbeTask) (o : List String) (g : Int) :
    (schedule.map (· + 1)).foldl (ProbeWorld.step port proto timeout)
        { tasks := t :: ts, stdout := o, waitgroup := g }
      = { tasks := t :: (schedule.foldl (ProbeWorld.step port proto timeout)
                          { tasks := ts, stdout := o, waitgroup := g }).tasks,
          stdout := (schedule.foldl (ProbeWorld.step port proto timeout)
                          { tasks := ts, stdout := o, waitgroup := g }).stdout,
          waitgroup := (schedule.foldl (ProbeWorld.step port proto timeout)
                          { tasks := ts, stdout := o, waitgroup := g }).waitgroup } := by
  induction schedule generalizing ts o g with
  | nil => rfl
  | cons i rest ih =>
      simp only [List.map_cons, List.foldl_cons]
      exact ih _ _ _

theorem run_seq (port : Int) (proto : String) (timeout : Int)
    (probes : List (String × ProbeNet)) (o : List String) (g : Int) :
    (seqSchedule probes.length).foldl (ProbeWorld.step port proto timeout)
        { tasks := probes.map (fun p => { ip := p.1, net := p.2, pc := 0 }),
          stdout := o, waitgroup := g }
      = { tasks := probes.map (fun p => { ip := p.1, net := p.2, pc := 2 }),
          stdout := o ++ probes.map (resultLine port proto timeout),
          waitgroup := g - probes.length } := by
  induction probes generalizing o g with
  | nil => simp [seqSchedule]
  | cons p ps ih =>
      simp only [List.length_cons, seqSchedule, List.foldl_cons, List.map_cons]
      have h2 : ProbeWorld.step port proto timeout
          (ProbeWorld.step port proto timeout
            { tasks := { ip := p.1, net := p.2, pc := 0 }
                :: ps.map (fun p => { ip := p.1, net := p.2, pc := 0 }),
              stdout := o, waitgroup := g } 0) 0
          = { tasks := { ip := p.1, net := p.2, pc := 2 }
                :: ps.map (fun p => { ip := p.1, net := p.2, pc := 0 }),
              stdout := o ++ [resultLine port proto timeout p], waitgroup := g - 1 } := by
        simp [ProbeWorld.step, stepAt, ProbeTask.step, checkPort_done, resultLine]
      rw [h2, run_shift, ih]
      simp only [List.append_assoc, List.singleton_append, ProbeWorld.mk.injEq, true_and]
      push_cast
      omega

theorem int64_of_range (x : Int) (h₁ : -9223372036854775808 ≤ x)
    (h₂ : x ≤ 9223372036854775807) : int64 x = x := by
  unfold int64
  norm_num
  omega

theorem seconds_of_range (n : Int) (h₁ : 0 ≤ n) (h₂ : n ≤ 9223372036) :
    seconds n = n * 1000000000 := by
  unfold seconds
  rw [int64_of_range n (by omega) (by omega), int64_of_range _ (by omega) (by omega)]

theorem main_of_valid (cfg : Config) (hport : cfg.port ≠ 0) (htargets : cfg.targets ≠ []) :
    main cfg
      = (if cfg.noListen then [] else [Action.goListener, Action.sleep (seconds cfg.delay)])
          ++ [Action.wgAdd cfg.targets.length] ++ probeActions cfg
          ++ [Action.wgWait, Action.sleep (seconds cfg.sleep), Action.closeQuit] := by
  have hlen : ¬ cfg.targets.length < 1 := by
    have := List.length_pos.mpr htargets
    omega
  unfold main
  rw [if_neg hport, if_neg hlen]
  cases cfg.noListen <;> simp [probeActions]

theorem probeActions_all_probe (cfg : Config) :
    ∀ a ∈ probeActions cfg, a.isProbe = true ∧ a.isFatal = false ∧ a.isRun = false
      ∧ a ≠ Action.closeQuit := by
  intro a ha
  obtain ⟨ip, _, rfl⟩ := List.mem_map.mp ha
  exact ⟨rfl, rfl, rfl, by simp⟩

theorem main_no_fatal (cfg : Config) (hport : cfg.port ≠ 0) (htargets : cfg.targets ≠ []) :
    (main cfg).any Action.isFatal = false := by
  rw [main_of_valid cfg hport htargets]
  have hp : (probeActions cfg).any Action.isFatal = false := by
    rw [List.any_eq_false]
    intro a ha
    simp [(probeActions_all_probe cfg a ha).2.1]
  cases cfg.noListen <;> simp [List.any_append, hp, Action.isFatal]

theorem main_no_run (cfg : Config) : (main cfg).filter (fun a => !a.isRun) = main cfg := by
  apply List.filter_eq_self.mpr
  intro a ha
  unfold main at ha
  split at ha
  · simp at ha; subst ha; rfl
  · split at ha
    · simp at ha; subst ha; rfl
    · simp only [List.mem_append, List.mem_cons, List.mem_singleton, List.not_mem_nil,
        or_false] at ha
      rcases ha with ((ha | ha) | ha) | ha
      · cases hn : cfg.noListen
        · simp only [hn, Bool.not_false, if_true, List.mem_cons, List.mem_singleton,
            List.not_mem_nil, or_false] at ha
          rcases ha with ha | ha <;> subst ha <;> rfl
        · simp [hn] at ha
      · subst ha; rfl
      · have := (probeActions_all_probe cfg a (by simpa [probeActions] using ha)).2.2.1
        simp [this]
      · rcases ha with ha | ha | ha <;> subst ha <;> rfl

theorem processTrace_of_no_listener (u : Char → Char) (cfg : Config) (env : ListenEnv) (k : Nat)
    (a : Action) (rest : List Action) (h : main cfg = a :: rest) (ha : a ≠ Action.goListener) :
    processTrace u cfg env k = main cfg := by
  unfold processTrace
  rw [h]
  cases a <;> first | rfl | exact absurd rfl ha

theorem processTrace_of_listener (u : Char → Char) (cfg : Config) (env : ListenEnv) (k : Nat)
    (rest : List Action) (h : main cfg = Action.goListener :: rest) :
    processTrace u cfg env k
      = if k < rest.length then
          Action.goListener :: (rest.take k ++ listenerBody u cfg env
            ++ (if (listenerBody u cfg env).any Action.isFatal then [] else rest.drop k))
        else Action.goListener :: rest := by
  unfold processTrace
  rw [h]

theorem listenerBody_of_invalid (u : Char → Char) (cfg : Config) (env : ListenEnv)
    (h₁ : ToLower u cfg.proto ≠ "tcp") (h₂ : ToLower u cfg.proto ≠ "udp") :
    listenerBody u cfg env = [Action.fatal (startErrorMessage cfg)] := by
  simp [listenerBody, NewServer, h₁, h₂, startErrorMessage]

theorem listenerBody_of_valid (u : Char → Char) (cfg : Config) (env : ListenEnv)
    (h : ToLower u cfg.proto = "tcp" ∨ ToLower u cfg.proto = "udp") :
    ∃ s, listenerBody u cfg env = [Action.run s (Server.Run s env)] := by
  rcases h with h | h
  · exact ⟨Server.tcp { addr := hostPort cfg.bind cfg.port, server := none },
      by simp [listenerBody, NewServer, h]⟩
  · exact ⟨Server.udp { addr := hostPort cfg.bind cfg.port, server := none },
      by simp [listenerBody, NewServer, h]⟩

theorem count_closeQuit_probeActions (cfg : Config) :
    (probeActions cfg).count Action.closeQuit = 0 := by
  rw [List.count_eq_zero]
  intro hmem
  exact (probeActions_all_probe cfg _ hmem).2.2.2 rfl

theorem main_cons_of_listening (cfg : Config) (hport : cfg.port ≠ 0)
    (htargets : cfg.targets ≠ []) (hl : cfg.noListen = false) :
    main cfg = Action.goListener ::
      ([Action.sleep (seconds cfg.delay), Action.wgAdd cfg.targets.length] ++ probeActions cfg
        ++ [Action.wgWait, Action.sleep (seconds cfg.sleep), Action.closeQuit]) := by
  rw [main_of_valid cfg hport htargets, hl]
  simp

theorem main_cons_of_noListen (cfg : Config) (hport : cfg.port ≠ 0)
    (htargets : cfg.targets ≠ []) (hl : cfg.noListen = true) :
    main cfg = Action.wgAdd cfg.targets.length ::
      (probeActions cfg
        ++ [Action.wgWait, Action.sleep (seconds cfg.sleep), Action.closeQuit]) := by
  rw [main_of_valid cfg hport htargets, hl]
  simp

theorem processTrace_filter_of_valid (u : Char → Char) (cfg : Config) (env : ListenEnv) (k : Nat)
    (hport : cfg.port ≠ 0) (htargets : cfg.targets ≠ [])
    (hproto : ToLower u cfg.proto = "tcp" ∨ ToLower u cfg.proto = "udp") :
    (processTrace u cfg env k).filter (fun a => !a.isRun) = main cfg ∧
      (processTrace u cfg env k).any Action.isFatal = false := by
  cases hl : cfg.noListen
  · have hm := main_cons_of_listening cfg hport htargets hl
    obtain ⟨srv, hbody⟩ := listenerBody_of_valid u cfg env hproto
    have hnf := main_no_fatal cfg hport htargets
    have hnr := main_no_run cfg
    rw [processTrace_of_listener u cfg env k _ hm, hbody]
    rw [hm] at hnf hnr
    split
    · have hsplit := List.take_append_drop k
        ([Action.sleep (seconds cfg.delay), Action.wgAdd cfg.targets.length] ++ probeActions cfg
          ++ [Action.wgWait, Action.sleep (seconds cfg.sleep), Action.closeQuit])
      generalize ([Action.sleep (seconds cfg.delay), Action.wgAdd cfg.targets.length]
        ++ probeActions cfg
        ++ [Action.wgWait, Action.sleep (seconds cfg.sleep), Action.closeQuit]) = rest
        at hsplit hnf hnr hm ⊢
      constructor
      · rw [hm]
        conv_rhs => rw [← hnr, ← hsplit]
        simp only [List.filter_cons, List.filter_append, Action.isRun, Action.isFatal,
          List.any_cons, List.any_nil, Bool.or_self, Bool.not_true,
          Bool.not_false, if_true, Bool.false_eq_true, if_false, List.filter_nil,
          List.append_nil, List.cons_append, List.nil_append]
      · rw [← hsplit] at hnf
        simp only [List.any_cons, List.any_append, Bool.or_eq_false_iff] at hnf
        simp [List.any_append, Action.isFatal, hnf.1, hnf.2.1, hnf.2.2]
    · rw [← hm]
      exact ⟨main_no_run cfg, main_no_fatal cfg hport htargets⟩
  · have hm := main_cons_of_noListen cfg hport htargets hl
    rw [processTrace_of_no_listener u cfg env k _ _ hm (by simp)]
    exact ⟨main_no_run cfg, main_no_fatal cfg hport htargets⟩

theorem main_any_run (cfg : Config) : (main cfg).any Action.isRun = false := by
  rw [List.any_eq_false]
  intro a ha
  have := List.filter_eq_self.mp (main_no_run cfg) a ha
  simpa using this

theorem filter_isProbe_probeActions (cfg : Config) :
    (probeActions cfg).filter Action.isProbe = probeActions cfg :=
  List.filter_eq_self.mpr (fun a ha => (probeActions_all_probe cfg a ha).1)

theorem world_tasks_eq_tasksRun (port : Int) (proto : String) (timeout : Int)
    (schedule : List Nat) (w : ProbeWorld) :
    (schedule.foldl (ProbeWorld.step port proto timeout) w).tasks
      = tasksRun port proto timeout schedule w.tasks := by
  induction schedule generalizing w with
  | nil => rfl
  | cons i rest ih =>
      simp only [List.foldl_cons, tasksRun]
      rw [ih]
      rfl

theorem tasksRun_nil (port : Int) (proto : String) (timeout : Int) (schedule : List Nat) :
    tasksRun port proto timeout schedule [] = [] := by
  induction schedule with
  | nil => rfl
  | cons i rest ih =>
      simp only [tasksRun, List.foldl_cons] at ih ⊢
      cases i <;> exact ih

theorem tasksRun_cons (port : Int) (proto : String) (timeout : Int) (schedule : List Nat)
    (t : ProbeTask) (ts : List ProbeTask) :
    tasksRun port proto timeout schedule (t :: ts)
      = headRun port proto timeout (schedule.count 0) t
          :: tasksRun port proto timeout (tailSchedule schedule) ts := by
  induction schedule generalizing t ts with
  | nil => rfl
  | cons i rest ih =>
      cases i with
      | zero =>
          have h := ih (ProbeTask.step port proto timeout t).1 ts
          simp only [tasksRun, List.foldl_cons, stepAt] at h ⊢
          rw [h]
          simp [headRun, tailSchedule, List.count_cons, Function.iterate_succ_apply]
      | succ j =>
          have h := ih t (stepAt port proto timeout j ts).1
          simp only [tasksRun, List.foldl_cons, stepAt] at h ⊢
          rw [h]
          simp [headRun, tailSchedule, List.count_cons, tasksRun]

theorem step_pc (port : Int) (proto : String) (timeout : Int) (t : ProbeTask) :
    (ProbeTask.step port proto timeout t).1.pc = if t.pc < 2 then t.pc + 1 else t.pc := by
  rcases t with ⟨ip, net, pc⟩
  rcases pc with _ | _ | pc
  · simp [ProbeTask.step]
  · simp [ProbeTask.step]
  · have h : ¬ pc + 1 + 1 < 2 := by omega
    simp [ProbeTask.step, h]

theorem headRun_pc (port : Int) (proto : String) (timeout : Int) (c : Nat) (t : ProbeTask) :
    min 2 (t.pc + c) ≤ (headRun port proto timeout c t).pc := by
  induction c generalizing t with
  | zero => simp [headRun]
  | succ c ih =>
      have h := ih (ProbeTask.step port proto timeout t).1
      rw [step_pc] at h
      simp only [headRun, Function.iterate_succ_apply] at h ⊢
      split at h <;> omega

theorem count_tailSchedule (schedule : List Nat) (j : Nat) :
    (tailSchedule schedule).count j = schedule.count (j + 1) := by
  induction schedule with
  | nil => rfl
  | cons i rest ih =>
      cases i with
      | zero =>
          simp only [tailSchedule, List.filterMap_cons] at ih ⊢
          rw [ih]
          simp [List.count_cons]
      | succ m =>
          simp only [tailSchedule, List.filterMap_cons, List.count_cons] at ih ⊢
          rw [ih]
          simp

theorem unfinished_tasksRun_of_complete (port : Int) (proto : String) (timeout : Int)
    (ts : List ProbeTask) (schedule : List Nat)
    (h : ∀ i, i < ts.length → 2 ≤ schedule.count i) :
    unfinished (tasksRun port proto timeout schedule ts) = 0 := by
  induction ts generalizing schedule with
  | nil => rw [tasksRun_nil]; rfl
  | cons t ts ih =>
      rw [tasksRun_cons]
      have hhead := headRun_pc port proto timeout (schedule.count 0) t
      have h0 := h 0 (by simp)
      have htail := ih (tailSchedule schedule) (by
        intro i hi
        rw [count_tailSchedule]
        exact h (i + 1) (by simpa using hi))
      have hpc : ¬ (headRun port proto timeout (schedule.count 0) t).pc < 2 := by
        have : 2 ≤ min 2 (t.pc + schedule.count 0) := by
          apply Nat.le_min.mpr
          constructor <;> omega
        omega
      simp only [unfinished, List.countP_cons] at htail ⊢
      simp [htail, hpc]

/-! ## The claims -/

/-- C1: the probes started by `main`, one `checkPort` task per target, under
every schedule of their steps. The counter of the wait group starts at the
number of targets and is at every moment the number of tasks that have not
returned, and standard output holds, in some order, the lines of the tasks
that have printed. When the counter is zero, standard output is a
permutation of the result lines of the targets, one line per target. The
counter does reach zero: it is zero after every schedule that gives each task
its two steps, and running the tasks one after the other prints the lines in
target order. The line of a target is its
host and port followed by OK and the byte count when the dial and the read
succeeded, and by Error and the error's text when either failed; it depends
on no other target. -/
theorem probes_emit_one_line_per_target (port : Int) (proto : String) (timeout : Int)
    (probes : List (String × ProbeNet)) (schedule : List Nat) :
    (startProbes probes).waitgroup = probes.length ∧
    (runProbes port proto timeout probes schedule).waitgroup
      = unfinished (runProbes port proto timeout probes schedule).tasks ∧
    targetsOf (runProbes port proto timeout probes schedule).tasks = probes ∧
    List.Perm (runProbes port proto timeout probes schedule).stdout
      (printedBy port proto timeout (runProbes port proto timeout probes schedule).tasks) ∧
    ((runProbes port proto timeout probes schedule).waitgroup = 0 →
      List.Perm (runProbes port proto timeout probes schedule).stdout
        (probes.map (resultLine port proto timeout))) ∧
    ((∀ i, i < probes.length → 2 ≤ schedule.count i) →
      (runProbes port proto timeout probes schedule).waitgroup = 0) ∧
    (runProbes port proto timeout probes (seqSchedule probes.length)).waitgroup = 0 ∧
    (runProbes port proto timeout probes (seqSchedule probes.length)).stdout
      = probes.map (resultLine port proto timeout) ∧
    (∀ h e, resultLine port proto timeout (h, ProbeNet.dialError e)
      = h ++ ":" ++ fmtInt port ++ ": Error " ++ e ++ "\n") ∧
    (∀ h e, resultLine port proto timeout (h, ProbeNet.readError e)
      = h ++ ":" ++ fmtInt port ++ ": Error " ++ e ++ "\n") ∧
    (∀ h n, resultLine port proto timeout (h, ProbeNet.readOk n)
      = h ++ ":" ++ fmtInt port ++ ": OK " ++ fmtInt n ++ "\n") := by
  obtain ⟨h₁, h₂, h₃⟩ := probeInv_run port proto timeout probes schedule (startProbes probes)
    (probeInv_start port proto timeout probes)
  have hseq := run_seq port proto timeout probes [] (0 + probes.length)
  refine ⟨by simp [startProbes], h₃, h₁, h₂, ?_, ?_, ?_, ?_, ?_, ?_, ?_⟩
  · intro h0
    have hu : unfinished (runProbes port proto timeout probes schedule).tasks = 0 := by
      have := h₃
      simp only [runProbes] at this h0 ⊢
      omega
    have := printedBy_of_unfinished_zero port proto timeout _ hu
    simp only [runProbes] at this h₁ h₂ ⊢
    rw [this, h₁] at h₂
    exact h₂
  · intro hall
    have hu := unfinished_tasksRun_of_complete port proto timeout (startProbes probes).tasks
      schedule (by simpa [startProbes] using hall)
    rw [← world_tasks_eq_tasksRun] at hu
    simp only [runProbes] at h₃ ⊢
    omega
  · simp only [runProbes, startProbes]
    rw [hseq]
    simp
  · simp only [runProbes, startProbes]
    rw [hseq]
    simp
  · intro h e; rfl
  · intro h e; rfl
  · intro h n; rfl

theorem probes_emit_one_line_per_target_witness :
    (∀ i, i < 2 → 2 ≤ List.count i [1, 0, 0, 1]) ∧
    (runProbes 9000 "tcp" 2 [("10.0.0.1", ProbeNet.readOk 23),
        ("10.0.0.2", ProbeNet.dialError "connection refused")] [1, 0, 0, 1]).waitgroup = 0 ∧
    List.Perm
      (runProbes 9000 "tcp" 2 [("10.0.0.1", ProbeNet.readOk 23),
        ("10.0.0.2", ProbeNet.dialError "connection refused")] [1, 0, 0, 1]).stdout
      ([("10.0.0.1", ProbeNet.readOk 23),
        ("10.0.0.2", ProbeNet.dialError "connection refused")].map
          (resultLine 9000 "tcp" 2)) ∧
    (runProbes 9000 "tcp" 2 [("10.0.0.1", ProbeNet.readOk 23),
        ("10.0.0.2", ProbeNet.dialError "connection refused")] [1, 0, 0, 1]).stdout
      = ["10.0.0.2:9000: Error connection refused\n", "10.0.0.1:9000: OK 23\n"] :=
  ⟨by decide, by decide,
   (probes_emit_one_line_per_target 9000 "tcp" 2 [("10.0.0.1", ProbeNet.readOk 23),
      ("10.0.0.2", ProbeNet.dialError "connection refused")] [1, 0, 0, 1]).2.2.2.2.1
      ((probes_emit_one_line_per_target 9000 "tcp" 2 [("10.0.0.1", ProbeNet.readOk 23),
        ("10.0.0.2", ProbeNet.dialError "connection refused")] [1, 0, 0, 1]).2.2.2.2.2.1
        (by decide)),
   by decide⟩

/-- C2: `NewServer(protocol, addr)` chooses by the lower-cased protocol name.
When `strings.ToLower(protocol)` is "tcp" it returns a TCP server on `addr`
and no error, when it is "udp" a UDP server on `addr` and no error, and for
every other string the nil server with the error "Invalid protocol given".
Every spelling of tcp and of udp in upper and lower case lower-cases to tcp
and to udp, and the empty string is refused. -/
theorem NewServer_selects_by_lowercased_protocol (u : Char → Char) (protocol addr : String) :
    (ToLower u protocol = "tcp" →
      NewServer u protocol addr = (some (Server.tcp { addr := addr, server := none }), none)) ∧
    (ToLower u protocol = "udp" →
      NewServer u protocol addr = (some (Server.udp { addr := addr, server := none }), none)) ∧
    (ToLower u protocol ≠ "tcp" → ToLower u protocol ≠ "udp" →
      NewServer u protocol addr = (none, some "Invalid protocol given")) ∧
    (protocol ∈ caseVariants 't' 'c' 'p' → ToLower u protocol = "tcp") ∧
    (protocol ∈ caseVariants 'u' 'd' 'p' → ToLower u protocol = "udp") ∧
    NewServer u "" addr = (none, some "Invalid protocol given") := by
  refine ⟨?_, ?_, ?_, ?_, ?_, ?_⟩
  · intro h
    simp [NewServer, h]
  · intro h
    have h' : ToLower u protocol ≠ "tcp" := by rw [h]; decide
    simp [NewServer, h]
  · intro h₁ h₂
    simp [NewServer, h₁, h₂]
  · intro h
    simp only [caseVariants, List.mem_cons, List.mem_singleton, List.not_mem_nil, or_false] at h
    rcases h with h | h | h | h | h | h | h | h <;> subst h <;> rfl
  · intro h
    simp only [caseVariants, List.mem_cons, List.mem_singleton, List.not_mem_nil, or_false] at h
    rcases h with h | h | h | h | h | h | h | h <;> subst h <;> rfl
  · rfl

theorem NewServer_selects_by_lowercased_protocol_witness :
    ToLower id "TCP" = "tcp" ∧
    NewServer id "TCP" "0.0.0.0:9000"
      = (some (Server.tcp { addr := "0.0.0.0:9000", server := none }), none) ∧
    ToLower id "Udp" = "udp" ∧
    NewServer id "Udp" ":53" = (some (Server.udp { addr := ":53", server := none }), none) ∧
    ToLower id "sctp" ≠ "tcp" ∧ ToLower id "sctp" ≠ "udp" ∧
    NewServer id "sctp" ":53" = (none, some "Invalid protocol given") :=
  ⟨by decide,
   (NewServer_selects_by_lowercased_protocol id "TCP" "0.0.0.0:9000").1 (by decide),
   by decide,
   (NewServer_selects_by_lowercased_protocol id "Udp" ":53").2.1 (by decide),
   by decide, by decide,
   (NewServer_selects_by_lowercased_protocol id "sctp" ":53").2.2.1 (by decide) (by decide)⟩

/-- C3: the TCP connection handler, on lines `l1 .. lk` read without error
and then a read error, writes "Request received: " followed by `l1`, ...,
"Request received: " followed by `lk`, in that order, then "failed to read
input", and nothing else; it then returns and the connection is closed. As
long as every read has succeeded it has neither returned nor closed the
connection. -/
theorem handleConnection_echoes_until_read_error (t : TCPServer) (ls : List String)
    (req err : String) (rest : List ReadResult) :
    TCPServer.handleConnection t (ls.map ReadResult.line ++ ReadResult.error req err :: rest)
      = { written := ls.map (fun l => "Request received: " ++ l) ++ ["failed to read input"],
          returned := true, closed := true } ∧
    TCPServer.handleConnection t (ls.map ReadResult.line)
      = { written := ls.map (fun l => "Request received: " ++ l),
          returned := false, closed := false } := by
  constructor
  · induction ls with
    | nil => rfl
    | cons l ls ih => simp [TCPServer.handleConnection, ih]
  · induction ls with
    | nil => rfl
    | cons l ls ih => simp [TCPServer.handleConnection, ih]

/-- C4: the TCP exchange end to end. The probe writes the token "TEST\n" to
the connection; the handler answers that line with "Request received:
TEST\n"; when the probe's read returns the whole answer, the result line for
host 127.0.0.1 and port 9000 is "127.0.0.1:9000: OK 23", 23 being the byte
length of the answer, which is positive. For every line the answer is 18
bytes longer than the line. -/
theorem tcp_exchange_reports_reply_length (t : TCPServer) (timeout : Int) (l : String) :
    (checkPort "127.0.0.1" 9000 "tcp" timeout
      (.readOk (stringBytes "Request received: TEST\n").length)).sent = ["TEST\n"] ∧
    (TCPServer.handleConnection t [.line "TEST\n"]).written = ["Request received: TEST\n"] ∧
    (checkPort "127.0.0.1" 9000 "tcp" timeout
      (.readOk (stringBytes "Request received: TEST\n").length)).printed
      = "127.0.0.1:9000: OK 23\n" ∧
    (stringBytes "Request received: TEST\n").length = 23 ∧
    0 < (stringBytes "Request received: TEST\n").length ∧
    (TCPServer.handleConnection t [.line l]).written = ["Request received: " ++ l] ∧
    (stringBytes ("Request received: " ++ l)).length = 18 + (stringBytes l).length := by
  have h23 : (stringBytes "Request received: TEST\n").length = 23 := by decide
  refine ⟨rfl, rfl, ?_, h23, by rw [h23]; decide, rfl, ?_⟩
  · rw [h23]; rfl
  · rw [stringBytes_append, List.length_append]
    have h18 : (stringBytes "Request received: ").length = 18 := by decide
    rw [h18]

/-- C5: the accept loops of the TCP and of the UDP server, on every sequence
of turns. The loop returns exactly when some turn finds the quit channel
ready, and what it returns is then the nil error; it never returns a non-nil
error. The handlers it has dispatched are, in order, one for each turn before
the first quit turn whose accept or read succeeded with a non-nil connection
or sender, and none for the turns that failed or came back nil. -/
theorem accept_loops_stop_only_on_quit (t : TCPServer) (u : UDPServer)
    (ticks : List TCPTick) (dgrams : List UDPTick) (e : String) :
    (TCPServer.handleConnections t ticks).result
      = (if ticks.any TCPTick.isQuit then some none else none) ∧
    (TCPServer.handleConnections t ticks).result ≠ some (some e) ∧
    (TCPServer.handleConnections t ticks).dispatched
      = (ticks.takeWhile (fun k => !k.isQuit)).filterMap TCPTick.handled ∧
    (UDPServer.handleConnections u dgrams).result
      = (if dgrams.any UDPTick.isQuit then some none else none) ∧
    (UDPServer.handleConnections u dgrams).result ≠ some (some e) ∧
    (UDPServer.handleConnections u dgrams).dispatched
      = (dgrams.takeWhile (fun k => !k.isQuit)).filterMap UDPTick.handled := by
  refine ⟨tcp_loop_result t ticks, ?_, tcp_loop_dispatched t ticks,
    udp_loop_result u dgrams, ?_, udp_loop_dispatched u dgrams⟩
  · rw [tcp_loop_result]; split <;> simp
  · rw [udp_loop_result]; split <;> simp

/-- C10: the UDP server answers a datagram of at most 2048 bytes `data` from
sender `a` with exactly one datagram, addressed to `a`, whose payload is
"Request recieved: " followed by `data` and nothing more: the handler writes
that one datagram, and among the replies of the server it stands between the
replies to the earlier and to the later datagrams, which do not change it.
The replies of the server are, turn by turn, a function of that turn's
datagram and sender alone. -/
theorem udp_handler_echoes_datagram (u : UDPServer) (a : UDPAddr) (data : List Byte)
    (before after : List UDPTick) (hn : data.length ≤ 2048)
    (hq : before.any UDPTick.isQuit = false) :
    UDPServer.handleConnection u a data
      = [{ payload := stringBytes "Request recieved: " ++ data, dest := a }] ∧
    (UDPServer.handleConnections u [.read data (some a) none]).dispatched = [(a, data)] ∧
    UDPServer.replies u (before ++ UDPTick.read data (some a) none :: after)
      = UDPServer.replies u before
          ++ { payload := stringBytes "Request recieved: " ++ data, dest := a }
            :: UDPServer.replies u after ∧
    UDPServer.replies u (before ++ UDPTick.read data (some a) none :: after)
      = ((before ++ UDPTick.read data (some a) none :: after).takeWhile
          (fun k => !k.isQuit)).filterMap UDPTick.reply := by
  have hall : ∀ x ∈ before, (fun k : UDPTick => !k.isQuit) x = true := by
    intro x hx
    have := List.any_eq_false.mp hq x hx
    simpa using this
  have htake : data.take 2048 = data := List.take_of_length_le hn
  refine ⟨rfl, ?_, ?_, udp_replies_eq u _⟩
  · simp [udp_loop_dispatched, UDPTick.isQuit, UDPTick.handled, htake]
  · rw [udp_replies_eq, udp_replies_eq, udp_replies_eq, takeWhile_append_of_all _ _ _ hall]
    have hb : before.takeWhile (fun k => !k.isQuit) = before := by
      have := takeWhile_append_of_all (fun k : UDPTick => !k.isQuit) before [] hall
      simpa using this
    rw [hb]
    simp [List.takeWhile_cons, UDPTick.isQuit, UDPTick.reply, UDPTick.handled, htake]

theorem udp_handler_echoes_datagram_witness :
    ([72, 105] : List Byte).length ≤ 2048 ∧
    List.any [UDPTick.read [1] none none] UDPTick.isQuit = false ∧
    UDPServer.replies { addr := ":9000", server := some 3 }
        ([UDPTick.read [1] none none]
          ++ UDPTick.read [72, 105] (some { ip := "10.0.0.7", port := 4000 }) none :: [UDPTick.quit])
      = UDPServer.replies { addr := ":9000", server := some 3 } [UDPTick.read [1] none none]
          ++ { payload := stringBytes "Request recieved: " ++ [72, 105],
               dest := { ip := "10.0.0.7", port := 4000 } }
            :: UDPServer.replies { addr := ":9000", server := some 3 } [UDPTick.quit] :=
  ⟨by decide, by decide,
   (udp_handler_echoes_datagram { addr := ":9000", server := some 3 }
      { ip := "10.0.0.7", port := 4000 } [72, 105] [UDPTick.read [1] none none] [UDPTick.quit]
      (by decide) (by decide)).2.2.1⟩

/-- C9: a missing port or an empty target list is fatal before anything
else happens. When the port is 0 the whole process is the single action
`log.Fatal("Please specify port")`; when the port is set and there is no
target it is the single action `log.Fatal("Please specify at least one IP to
check")`: no listener task is launched, `Run` is never called and no probe is
started. When the port is not 0 and there is at least one target, `main`
makes no fatal call. -/
theorem main_missing_port_or_targets_is_fatal (u : Char → Char) (cfg : Config)
    (env : ListenEnv) (k : Nat) :
    (cfg.port = 0 →
      main cfg = [Action.fatal "Please specify port"] ∧
      processTrace u cfg env k = [Action.fatal "Please specify port"]) ∧
    (cfg.port ≠ 0 → cfg.targets = [] →
      main cfg = [Action.fatal "Please specify at least one IP to check"] ∧
      processTrace u cfg env k = [Action.fatal "Please specify at least one IP to check"]) ∧
    (cfg.port = 0 ∨ cfg.targets = [] →
      abortsBeforeNetwork (processTrace u cfg env k) = true ∧
      (processTrace u cfg env k).all
        (fun a => !a.isProbe && !a.isRun && !decide (a = Action.goListener)) = true) ∧
    (cfg.port ≠ 0 → cfg.targets ≠ [] → (main cfg).any Action.isFatal = false) := by
  have hA : cfg.port = 0 →
      main cfg = [Action.fatal "Please specify port"] ∧
      processTrace u cfg env k = [Action.fatal "Please specify port"] := by
    intro h
    have hm : main cfg = [Action.fatal "Please specify port"] := by simp [main, h]
    exact ⟨hm, (processTrace_of_no_listener u cfg env k _ _ hm (by simp)).trans hm⟩
  have hB : cfg.port ≠ 0 → cfg.targets = [] →
      main cfg = [Action.fatal "Please specify at least one IP to check"] ∧
      processTrace u cfg env k = [Action.fatal "Please specify at least one IP to check"] := by
    intro h₁ h₂
    have hm : main cfg = [Action.fatal "Please specify at least one IP to check"] := by
      simp [main, h₁, h₂]
    exact ⟨hm, (processTrace_of_no_listener u cfg env k _ _ hm (by simp)).trans hm⟩
  refine ⟨hA, hB, ?_, main_no_fatal cfg⟩
  intro h
  by_cases hp : cfg.port = 0
  · rw [(hA hp).2]; exact ⟨rfl, rfl⟩
  · have ht : cfg.targets = [] := h.resolve_left hp
    rw [(hB hp ht).2]; exact ⟨rfl, rfl⟩

theorem main_missing_port_or_targets_is_fatal_witness :
    ({ sampleConfig with port := 0 } : Config).port = 0 ∧
    processTrace id { sampleConfig with port := 0 } quietEnv 0
      = [Action.fatal "Please specify port"] ∧
    ({ sampleConfig with targets := [] } : Config).port ≠ 0 ∧
    ({ sampleConfig with targets := [] } : Config).targets = [] ∧
    processTrace id { sampleConfig with targets := [] } quietEnv 0
      = [Action.fatal "Please specify at least one IP to check"] ∧
    sampleConfig.port ≠ 0 ∧ sampleConfig.targets ≠ [] ∧
    (main sampleConfig).any Action.isFatal = false :=
  ⟨rfl,
   ((main_missing_port_or_targets_is_fatal id { sampleConfig with port := 0 } quietEnv 0).1
      rfl).2,
   by decide, rfl,
   ((main_missing_port_or_targets_is_fatal id { sampleConfig with targets := [] } quietEnv 0).2.1
      (by decide) rfl).2,
   by decide, by decide,
   (main_missing_port_or_targets_is_fatal id sampleConfig quietEnv 0).2.2.2
      (by decide) (by decide)⟩

/-- C7: the order of the coordinator's actions, for every configuration with
a port, at least one target and the protocol tcp or udp. With listening
enabled `main` does exactly this, in this order: launch the listener task,
sleep the startup delay, add the number of targets to the wait group, start
one probe per target, wait on the wait group, sleep the shutdown grace, close
the quit channel. With `noListen` the first two are skipped. In both cases
the quit channel is closed exactly once, as the last action, after the wait
and the grace sleep; the process does nothing else than these actions and at
most the `Run` call of the listener task, and no fatal call. The two sleeps
last the configured number of seconds for every value from 0 to 9223372036,
and the wait group lets `main` through, its counter at zero, only when no
probe task is left unfinished. -/
theorem main_lifecycle_order (u : Char → Char) (cfg : Config) (env : ListenEnv) (k : Nat)
    (nets : List ProbeNet) (schedule : List Nat)
    (hport : cfg.port ≠ 0) (htargets : cfg.targets ≠ [])
    (hproto : ToLower u cfg.proto = "tcp" ∨ ToLower u cfg.proto = "udp") :
    (cfg.noListen = false →
      main cfg
        = [Action.goListener, Action.sleep (seconds cfg.delay),
            Action.wgAdd cfg.targets.length]
          ++ probeActions cfg
          ++ [Action.wgWait, Action.sleep (seconds cfg.sleep), Action.closeQuit]) ∧
    (cfg.noListen = true →
      main cfg
        = [Action.wgAdd cfg.targets.length] ++ probeActions cfg
          ++ [Action.wgWait, Action.sleep (seconds cfg.sleep), Action.closeQuit]) ∧
    (main cfg).count Action.closeQuit = 1 ∧
    (main cfg).getLast? = some Action.closeQuit ∧
    (processTrace u cfg env k).filter (fun a => !a.isRun) = main cfg ∧
    (processTrace u cfg env k).any Action.isFatal = false ∧
    (processTrace u cfg env k).count Action.closeQuit = 1 ∧
    (0 ≤ cfg.delay → cfg.delay ≤ 9223372036 → seconds cfg.delay = cfg.delay * 1000000000) ∧
    (0 ≤ cfg.sleep → cfg.sleep ≤ 9223372036 → seconds cfg.sleep = cfg.sleep * 1000000000) ∧
    ((runProbes cfg.port cfg.proto cfg.timeout (cfg.targets.zip nets) schedule).waitgroup = 0 →
      unfinished
        (runProbes cfg.port cfg.proto cfg.timeout (cfg.targets.zip nets) schedule).tasks = 0) := by
  have hmain := main_of_valid cfg hport htargets
  have hfilter := processTrace_filter_of_valid u cfg env k hport htargets hproto
  have hcount : (main cfg).count Action.closeQuit = 1 := by
    rw [hmain]
    cases cfg.noListen <;>
      simp [List.count_append, List.count_cons, count_closeQuit_probeActions]
  refine ⟨?_, ?_, hcount, ?_, hfilter.1, hfilter.2, ?_, seconds_of_range _, seconds_of_range _, ?_⟩
  · intro hl
    rw [hmain, hl]
    simp
  · intro hl
    rw [hmain, hl]
    simp
  · have hlast : main cfg
        = ((if cfg.noListen then [] else [Action.goListener, Action.sleep (seconds cfg.delay)])
            ++ [Action.wgAdd cfg.targets.length] ++ probeActions cfg
            ++ [Action.wgWait, Action.sleep (seconds cfg.sleep)]) ++ [Action.closeQuit] := by
      rw [hmain]
      simp
    rw [hlast, List.getLast?_concat]
  · have h := List.count_filter (l := processTrace u cfg env k)
      (p := fun a : Action => !a.isRun) (a := Action.closeQuit) rfl
    rw [← h, hfilter.1, hcount]
  · intro h0
    have hinv := (probeInv_run cfg.port cfg.proto cfg.timeout (cfg.targets.zip nets) schedule
      (startProbes (cfg.targets.zip nets))
      (probeInv_start cfg.port cfg.proto cfg.timeout (cfg.targets.zip nets))).2.2
    simp only [runProbes] at h0 ⊢
    omega

theorem main_lifecycle_order_witness :
    sampleConfig.port ≠ 0 ∧ sampleConfig.targets ≠ [] ∧
    (ToLower id sampleConfig.proto = "tcp" ∨ ToLower id sampleConfig.proto = "udp") ∧
    main sampleConfig
      = [Action.goListener, Action.sleep 1000000000, Action.wgAdd 1,
          Action.goCheckPort "127.0.0.1" 9000 "tcp" 2,
          Action.wgWait, Action.sleep 3000000000, Action.closeQuit] ∧
    (main sampleConfig).count Action.closeQuit = 1 ∧
    (processTrace id sampleConfig quietEnv 1).filter (fun a => !a.isRun) = main sampleConfig :=
  ⟨by decide, by decide, by decide, by decide,
   (main_lifecycle_order id sampleConfig quietEnv 1 [ProbeNet.readOk 23] [0, 0]
      (by decide) (by decide) (by decide)).2.2.1,
   (main_lifecycle_order id sampleConfig quietEnv 1 [ProbeNet.readOk 23] [0, 0]
      (by decide) (by decide) (by decide)).2.2.2.2.1⟩

/-- C8, as stated, fails: with `noListen` the protocol name is never checked.
For the protocol "sctp", port 9000 and the target 127.0.0.1, `NewServer` would
refuse the name, yet the process makes no fatal call, launches the probe with
that protocol and runs to the closing of the quit channel. -/
theorem invalid_protocol_not_fatal_without_listener :
    NewServer id "sctp" (hostPort "" 9000) = (none, some "Invalid protocol given") ∧
    ({ sampleConfig with proto := "sctp", noListen := true } : Config).port ≠ 0 ∧
    ({ sampleConfig with proto := "sctp", noListen := true } : Config).targets ≠ [] ∧
    (∀ (u : Char → Char) (env : ListenEnv) (k : Nat),
      ToLower u "sctp" ≠ "tcp" ∧ ToLower u "sctp" ≠ "udp" ∧
      processTrace u { sampleConfig with proto := "sctp", noListen := true } env k
        = [Action.wgAdd 1, Action.goCheckPort "127.0.0.1" 9000 "sctp" 2, Action.wgWait,
            Action.sleep 3000000000, Action.closeQuit] ∧
      abortsBeforeNetwork
        (processTrace u { sampleConfig with proto := "sctp", noListen := true } env k)
        = false) := by
  refine ⟨by decide, by decide, by decide, ?_⟩
  intro u env k
  have h₁ : ToLower u "sctp" = "sctp" := rfl
  have hm : main { sampleConfig with proto := "sctp", noListen := true }
      = [Action.wgAdd 1, Action.goCheckPort "127.0.0.1" 9000 "sctp" 2, Action.wgWait,
          Action.sleep 3000000000, Action.closeQuit] := by decide
  have hp := processTrace_of_no_listener u
    { sampleConfig with proto := "sctp", noListen := true } env k _ _ hm (by simp)
  refine ⟨by rw [h₁]; decide, by rw [h₁]; decide, hp.trans hm, ?_⟩
  rw [hp, hm]
  rfl

/-- C8, amended: an invalid protocol name is fatal only when listening is
enabled. For every configuration with a port, at least one target and a
protocol that is neither tcp nor udp once lower-cased: with `noListen` false
the listener task's only action is the `log.Fatal` that follows the error of
`NewServer`, so `Run` is never called, whenever the task is scheduled; when
it is scheduled before `main` starts the first probe (after at most the
launch, the startup delay and the `Add` on the wait group), the process ends
with that fatal call and no probe is launched. With `noListen` true the
process is `main` alone: no fatal call, one probe per target. -/
theorem invalid_protocol_fatal_only_when_listening (u : Char → Char) (cfg : Config)
    (env : ListenEnv) (k : Nat) (hport : cfg.port ≠ 0) (htargets : cfg.targets ≠ [])
    (h₁ : ToLower u cfg.proto ≠ "tcp") (h₂ : ToLower u cfg.proto ≠ "udp") :
    (cfg.noListen = false →
      listenerBody u cfg env = [Action.fatal (startErrorMessage cfg)] ∧
      (processTrace u cfg env k).any Action.isRun = false ∧
      (k ≤ 2 →
        processTrace u cfg env k
          = [Action.goListener, Action.sleep (seconds cfg.delay),
              Action.wgAdd cfg.targets.length].take (k + 1)
            ++ [Action.fatal (startErrorMessage cfg)] ∧
        abortsBeforeNetwork (processTrace u cfg env k) = true)) ∧
    (cfg.noListen = true →
      processTrace u cfg env k = main cfg ∧
      (processTrace u cfg env k).any Action.isFatal = false ∧
      (processTrace u cfg env k).filter Action.isProbe = probeActions cfg ∧
      abortsBeforeNetwork (processTrace u cfg env k) = false) := by
  have hbody := listenerBody_of_invalid u cfg env h₁ h₂
  constructor
  · intro hl
    have hm := main_cons_of_listening cfg hport htargets hl
    have hrun := main_any_run cfg
    have htrace := processTrace_of_listener u cfg env k _ hm
    rw [hbody] at htrace
    refine ⟨hbody, ?_, ?_⟩
    · rw [htrace]
      rw [hm] at hrun
      split
      · simp only [List.any_cons, Bool.or_eq_false_iff] at hrun
        have htake : (List.take k
            ([Action.sleep (seconds cfg.delay), Action.wgAdd cfg.targets.length]
              ++ probeActions cfg
              ++ [Action.wgWait, Action.sleep (seconds cfg.sleep), Action.closeQuit])).any
            Action.isRun = false := by
          rw [List.any_eq_false]
          intro a ha
          have := List.any_eq_false.mp hrun.2 a (List.mem_of_mem_take ha)
          simpa using this
        have hfat : [Action.fatal (startErrorMessage cfg)].any Action.isFatal = true := rfl
        rw [hfat, if_pos rfl, List.append_nil, List.any_cons, List.any_append, htake]
        rfl
      · exact hrun
    · intro hk
      have hlt : k < ([Action.sleep (seconds cfg.delay), Action.wgAdd cfg.targets.length]
          ++ probeActions cfg
          ++ [Action.wgWait, Action.sleep (seconds cfg.sleep), Action.closeQuit]).length := by
        simp only [List.length_append, List.length_cons, List.length_nil]
        omega
      rw [htrace, if_pos hlt]
      have h3 : k = 0 ∨ k = 1 ∨ k = 2 := by omega
      rcases h3 with rfl | rfl | rfl
      · exact ⟨by simp [Action.isFatal],
          by simp [abortsBeforeNetwork, Action.isFatal, Action.isProbe, Action.isRun,
            List.takeWhile_cons]⟩
      · exact ⟨by simp [Action.isFatal],
          by simp [abortsBeforeNetwork, Action.isFatal, Action.isProbe, Action.isRun,
            List.takeWhile_cons]⟩
      · exact ⟨by simp [Action.isFatal],
          by simp [abortsBeforeNetwork, Action.isFatal, Action.isProbe, Action.isRun,
            List.takeWhile_cons]⟩
  · intro hl
    have hm := main_cons_of_noListen cfg hport htargets hl
    have hp := processTrace_of_no_listener u cfg env k _ _ hm (by simp)
    have hnf := main_no_fatal cfg hport htargets
    refine ⟨hp, by rw [hp]; exact hnf, ?_, ?_⟩
    · rw [hp, hm]
      simp [List.filter_cons, List.filter_append, Action.isProbe, filter_isProbe_probeActions]
    · rw [hp]
      simp [abortsBeforeNetwork, hnf]

theorem invalid_protocol_fatal_only_when_listening_witness :
    ({ sampleConfig with proto := "sctp" } : Config).port ≠ 0 ∧
    ({ sampleConfig with proto := "sctp" } : Config).targets ≠ [] ∧
    ToLower id "sctp" ≠ "tcp" ∧ ToLower id "sctp" ≠ "udp" ∧
    processTrace id { sampleConfig with proto := "sctp" } quietEnv 1
      = [Action.goListener, Action.sleep 1000000000,
          Action.fatal "Error starting server on %s:%d9000"] ∧
    processTrace id { sampleConfig with proto := "sctp", noListen := true } quietEnv 1
      = main { sampleConfig with proto := "sctp", noListen := true } :=
  ⟨by decide, by decide, by decide, by decide,
   by
     have h := ((invalid_protocol_fatal_only_when_listening id
       { sampleConfig with proto := "sctp" } quietEnv 1 (by decide) (by decide) (by decide)
       (by decide)).1 rfl).2.2 (by decide)
     exact h.1.trans (by decide),
   ((invalid_protocol_fatal_only_when_listening id
       { sampleConfig with proto := "sctp", noListen := true } quietEnv 1 (by decide)
       (by decide) (by decide) (by decide)).2 rfl).1⟩

/-- C6, on the code: a bind failure does not stop the run. With listening
enabled, port 9000, the target 127.0.0.1 and `net.Listen` failing because
the address is in use, `Run` returns that error to the listener task, which
drops it: whenever the task is scheduled, the process makes no fatal call,
launches the probe and ends by closing the quit channel. -/
theorem bind_failure_is_not_fatal :
    Server.Run (Server.tcp ⟨hostPort sampleConfig.bind sampleConfig.port, none⟩) busyEnv
      = some (some "listen tcp :9000: bind: address already in use") ∧
    listenerBody id sampleConfig busyEnv
      = [Action.run (Server.tcp { addr := ":9000", server := none })
          (some (some "listen tcp :9000: bind: address already in use"))] ∧
    (∀ k : Nat,
      (processTrace id sampleConfig busyEnv k).any Action.isFatal = false ∧
      (processTrace id sampleConfig busyEnv k).filter Action.isProbe
        = [Action.goCheckPort "127.0.0.1" 9000 "tcp" 2] ∧
      (processTrace id sampleConfig busyEnv k).getLast? = some Action.closeQuit) := by
  refine ⟨by decide, by decide, ?_⟩
  intro k
  rcases Nat.lt_or_ge k 6 with hk | hk
  · have h6 : k = 0 ∨ k = 1 ∨ k = 2 ∨ k = 3 ∨ k = 4 ∨ k = 5 := by omega
    rcases h6 with rfl | rfl | rfl | rfl | rfl | rfl <;> decide
  · have hm : main sampleConfig
        = Action.goListener :: [Action.sleep 1000000000, Action.wgAdd 1,
            Action.goCheckPort "127.0.0.1" 9000 "tcp" 2, Action.wgWait,
            Action.sleep 3000000000, Action.closeQuit] := by decide
    have hlen : ¬ k < [Action.sleep 1000000000, Action.wgAdd 1,
            Action.goCheckPort "127.0.0.1" 9000 "tcp" 2, Action.wgWait,
            Action.sleep 3000000000, Action.closeQuit].length := by
      simp only [List.length_cons, List.length_nil]
      omega
    rw [processTrace_of_listener id sampleConfig busyEnv k _ hm, if_neg hlen]
    decide

end PortTester
